import Mathlib

/-
Verification development for the knowledge-base backend.

The definitions below are a shallow embedding of the core retrieval and
concept-graph logic of the Python backend:

  * backend/services/search_engine.py  (result fusion, fallback lexical
    scoring, TF-IDF ranking path, degraded semantic retrieval),
  * backend/api/search.py              (query validation in the search route),
  * backend/services/concept_analyzer.py (concept similarity, relation
    typing, concept upsert/persistence),
  * backend/api/concepts.py            (concept merge endpoint).

Python strings are modelled as `List Char`, floats as `ℚ`, database rows as
structures, and tables as lists of rows kept in insertion order (mirroring
the autoincrement ids and the ordering of SQLAlchemy collections).  Database
lookups (`.first()`, `get_or_404`) become `List.find?` / `Option`; a 404
becomes `Option.none`.  Sub-steps whose internals are outside the embedded
core (the external embedding model, SQL candidate selection, highlight
extraction) are passed in as function or list parameters, so the control
flow that uses them is embedded exactly while their outputs stay opaque.
-/

/-! ## Python string primitives over `List Char` -/

/-- Lower-casing of a string, one character at a time (Python `str.lower` on
the ASCII range used by the code). -/
def toLowerL (s : List Char) : List Char :=
  s.map Char.toLower

/-- Python `str.split()` with no argument: split on whitespace runs and drop
the empty pieces. -/
def pySplit (s : List Char) : List (List Char) :=
  (s.splitOnP (fun c => c.isWhitespace)).filter (fun w => decide (w ≠ []))

/-- Python `str.strip()` with no argument: drop leading and trailing
whitespace. -/
def pyStrip (s : List Char) : List Char :=
  ((s.dropWhile Char.isWhitespace).reverse.dropWhile Char.isWhitespace).reverse

/-- Fuel-indexed helper for `countOccs`; the fuel starts at the length of the
searched string, which bounds the number of scan steps. -/
def countOccsAux (t : List Char) : ℕ → List Char → ℕ
  | 0, _ => 0
  | _, [] => 0
  | fuel + 1, c :: rest =>
    if t ≠ [] ∧ t.isPrefixOf (c :: rest) then
      1 + countOccsAux t fuel (List.drop (t.length - 1) rest)
    else
      countOccsAux t fuel rest

/-- Python `s.count(t)` for a non-empty pattern `t`: number of
non-overlapping occurrences of `t` in `s`, scanning left to right. -/
def countOccs (t s : List Char) : ℕ :=
  countOccsAux t s.length s

/-! ## Search results and hybrid fusion (`search_engine.py`) -/

/-- One retrieval result: the uniform record shape produced by
`_keyword_search` / `_semantic_search` / `_concept_search` and consumed by
`_merge_search_results`.  The document is referenced by id; highlights are
kept as opaque strings. -/
structure SR where
  doc_id : ℕ
  score : ℚ
  search_type : String
  search_methods : List String := []
  highlights : List String := []
deriving DecidableEq, Inhabited

/-- The per-mode weight dictionary of `_merge_search_results` together with
its `.get(_, 0.3)` default. -/
def mode_weight (search_type : String) : ℚ :=
  if search_type = "keyword" then 2/5
  else if search_type = "semantic" then 2/5
  else if search_type = "concept" then 1/5
  else 3/10

/-- Keys of a Python dict built by inserting list elements in order:
first-occurrence order, no duplicates (the iteration order of
`doc_results` in `_merge_search_results`). -/
def firstDedup : List ℕ → List ℕ
  | [] => []
  | x :: xs => x :: (firstDedup xs).filter (fun y => decide (y ≠ x))

/-- The group `doc_results[d]`: all results for document `d`, in order. -/
def group_for (results : List SR) (d : ℕ) : List SR :=
  results.filter (fun r => decide (r.doc_id = d))

/-- The combined record built by `_merge_search_results` for a document found
by more than one method: weighted score sum plus `0.1` per distinct
contributing method, highlights concatenated and truncated to 5. -/
def combine_group (g : List SR) : SR :=
  { doc_id := g.headI.doc_id
    score := (g.map (fun r => r.score * mode_weight r.search_type)).sum
      + (((g.map (fun r => r.search_type)).dedup.length : ℚ)) * (1/10)
    search_type := "hybrid"
    search_methods := (g.map (fun r => r.search_type)).dedup
    highlights := ((g.map (fun r => r.highlights)).flatten).take 5 }

/-- Sorting by score, descending: Python
`sorted(results, key=lambda x: x['score'], reverse=True)`. -/
def sortByScoreDesc (rs : List SR) : List SR :=
  List.insertionSort (fun a b => b.score ≤ a.score) rs

/-- `SearchEngine._merge_search_results`: non-hybrid searches pass through;
hybrid searches group by document id, keep singleton groups unchanged,
combine larger groups, and sort by score descending. -/
def merge_search_results (results : List SR) (search_type : String) : List SR :=
  if search_type ≠ "hybrid" then results
  else
    let keys := firstDedup (results.map (fun r => r.doc_id))
    let merged := keys.map (fun d =>
      let g := group_for results d
      if g.length = 1 then g.headI else combine_group g)
    sortByScoreDesc merged

/-- The capped content term contribution of
`SearchEngine._calculate_simple_relevance`:
`min(content_lower.count(term) * 0.1, 1.0)`. -/
def contentTermScore (t content_lower : List Char) : ℚ :=
  min ((countOccs t content_lower : ℚ) * (1/10)) 1

/-- `SearchEngine._calculate_simple_relevance`: the fallback lexical score.
The Python accumulates one running total over the title, summary and content
passes; written here as the sum of the three per-term sums.  A `None` field
is represented by the empty string (both contribute nothing, since query
terms are non-empty). -/
def calculate_simple_relevance (title summary content query : List Char) : ℚ :=
  let query_terms := pySplit (toLowerL query)
  let title_lower := toLowerL title
  let summary_lower := toLowerL summary
  let content_lower := toLowerL content
  (query_terms.map (fun t => if t <:+: title_lower then (2 : ℚ) else 0)).sum
    + (query_terms.map (fun t => (countOccs t summary_lower : ℚ) * 1)).sum
    + (query_terms.map (fun t => contentTermScore t content_lower)).sum

/-- A document row as seen by the ranking code: id plus the text fields. -/
structure DocM where
  id : ℕ
  title : String := ""
  summary : String := ""
  content : String := ""
deriving DecidableEq

/-- The TF-IDF ranking path of `SearchEngine._keyword_search`:
`doc_similarities` is the snapshot mapping built from `self.doc_ids` at
index-build time, `documents` the candidate list from the substring
pre-filter, and `hl` the highlight extractor.  A candidate absent from the
snapshot gets `doc_similarities.get(doc.id, 0.0) = 0`, and only candidates
with similarity strictly above `0.01` are kept. -/
def tfidf_rank (doc_similarities : List (ℕ × ℚ)) (documents : List DocM)
    (query : String) (hl : DocM → String → List String) : List SR :=
  sortByScoreDesc (documents.filterMap (fun doc =>
    let similarity := (List.lookup doc.id doc_similarities).getD 0
    if similarity > 1/100 then
      some { doc_id := doc.id, score := similarity, search_type := "keyword",
             highlights := hl doc query }
    else none))

/-- `SearchEngine._semantic_search`: returns no results when the embedding
model is absent or no document embeddings were built; otherwise runs the
similarity computation `body` (query encoding, cosine ranking, filtering),
whose internals are opaque here. -/
def semantic_search (embedding_model : Option (List Char → List ℚ))
    (document_embeddings : List (ℕ × List ℚ))
    (body : (List Char → List ℚ) → List (ℕ × List ℚ) → List SR) : List SR :=
  match embedding_model with
  | none => []
  | some m => if document_embeddings = [] then [] else body m document_embeddings

/-- `SearchEngine.search_documents`: rejects blank queries with an empty
result, fans out to the modes selected by `search_type` (semantic only when
an embedding model is present), merges, and truncates to `limit`.  The
keyword and concept sub-search outputs are passed in as lists since their
internals live behind database queries. -/
def search_documents_impl (embedding_model : Option (List Char → List ℚ))
    (document_embeddings : List (ℕ × List ℚ))
    (keyword_results concept_results : List SR)
    (body : (List Char → List ℚ) → List (ℕ × List ℚ) → List SR)
    (query : List Char) (search_type : String) (limit : ℕ) : List SR :=
  if pyStrip query = [] then []
  else
    let results :=
      (if search_type = "keyword" ∨ search_type = "hybrid" then keyword_results else [])
      ++ (if (search_type = "semantic" ∨ search_type = "hybrid") ∧ embedding_model.isSome then
            semantic_search embedding_model document_embeddings body
          else [])
      ++ (if search_type = "concept" ∨ search_type = "hybrid" then concept_results else [])
    (merge_search_results results search_type).take limit

/-- Outcome of the search route: a 400 validation error or a result list. -/
inductive ApiOutcome where
  | validationError
  | ok (results : List SR)
deriving DecidableEq

/-- The `GET /search` route (`search_documents` in `api/search.py`): strips
the `q` parameter, rejects an empty result with a 400 before the engine (and
thus any retriever or index) is touched, and otherwise searches with the
stripped query.  The engine call is the opaque parameter `retrieve`. -/
def search_documents_route (retrieve : List Char → List SR) (q : List Char) : ApiOutcome :=
  let query := pyStrip q
  if query = [] then ApiOutcome.validationError
  else ApiOutcome.ok (retrieve query)

/-! ## Concept similarity and relation typing (`concept_analyzer.py`) -/

/-- A concept as read by the similarity code: its name, category and the set
of linked document ids.  The `document_concepts` association table has
`(document_id, concept_id)` as its primary key, so a concept's document
collection contains no duplicates and is modelled as a `Finset`. -/
structure CConcept where
  name : List Char
  category : String
  docs : Finset ℕ
deriving DecidableEq

/-- `ConceptAnalyzer._calculate_concept_similarity`: Jaccard similarity of
the whitespace-tokenized lower-cased names times 0.4 (when both word sets
are non-empty), plus 0.3 for an equal category, plus the document
co-occurrence ratio times 0.3 (when some document is shared), capped at 1. -/
def calculate_concept_similarity (c1 c2 : CConcept) : ℚ :=
  let words1 := (pySplit (toLowerL c1.name)).toFinset
  let words2 := (pySplit (toLowerL c2.name)).toFinset
  let nameScore :=
    if words1 ≠ ∅ ∧ words2 ≠ ∅ then
      (((words1 ∩ words2).card : ℚ) / ((words1 ∪ words2).card : ℚ)) * (2/5)
    else 0
  let categoryScore := if c1.category = c2.category then (3/10 : ℚ) else 0
  let common_docs := c1.docs ∩ c2.docs
  let coScore :=
    if common_docs ≠ ∅ then
      ((common_docs.card : ℚ) / ((max c1.docs.card c2.docs.card : ℕ) : ℚ)) * (3/10)
    else 0
  min (nameScore + categoryScore + coScore) 1

/-- The similarity formula as the specification words it: Jaccard × 0.4 plus
category equality × 0.3 plus co-occurrence ratio × 0.3 (zero when no
document is shared), capped at 1.  Stated without the code's emptiness
guards; in `ℚ`, division by zero is zero, which is what makes the two
presentations agree. -/
def similaritySpec (c1 c2 : CConcept) : ℚ :=
  let words1 := (pySplit (toLowerL c1.name)).toFinset
  let words2 := (pySplit (toLowerL c2.name)).toFinset
  let jaccard := ((words1 ∩ words2).card : ℚ) / ((words1 ∪ words2).card : ℚ)
  let categoryScore := if c1.category = c2.category then (3/10 : ℚ) else 0
  let shared := c1.docs ∩ c2.docs
  let cooccurrence :=
    if shared = ∅ then 0
    else (shared.card : ℚ) / ((max c1.docs.card c2.docs.card : ℕ) : ℚ)
  min (jaccard * (2/5) + categoryScore + cooccurrence * (3/10)) 1

/-- `ConceptAnalyzer._determine_relation_type`: the ordered classification
rules, first match wins.  The `'design' in name` checks are substring tests
on the stored (already lower-cased) names. -/
def determine_relation_type (concept1 concept2 : CConcept) (similarity : ℚ) : String :=
  if similarity > 4/5 then "synonym"
  else if concept1.category = concept2.category then "related"
  else if "design".toList <:+: concept1.name ∧ "design".toList <:+: concept2.name then "related"
  else if similarity > 3/5 then "related"
  else "weak_relation"

/-! ## Concept registry persistence (`save_concepts_to_db`) -/

/-- One extracted concept sighting handed to `save_concepts_to_db`. -/
structure ConceptData where
  name : String
  category : String
  context : String
  confidence : ℚ
deriving DecidableEq

/-- A row of the `concepts` table. -/
structure ConceptRow where
  id : ℕ
  name : String
  category : String
  description : String
  frequency : ℕ
deriving DecidableEq

/-- A row of the `document_concepts` association table. -/
structure DCLink where
  document_id : ℕ
  concept_id : ℕ
  relevance_score : ℚ
  context : String
deriving DecidableEq

/-- The registry database: concept rows and document links in insertion
order, plus the autoincrement counter for concept ids. -/
structure DBState where
  concepts : List ConceptRow
  links : List DCLink
  next_id : ℕ
deriving DecidableEq

/-- An SQL `UPDATE ... WHERE id = i` of `frequency := frequency + 1`: bumps
the (unique, `id` being the primary key) row with the given id. -/
def bumpFrequency : List ConceptRow → ℕ → List ConceptRow
  | [], _ => []
  | r :: rest, i =>
    if r.id = i then { r with frequency := r.frequency + 1 } :: rest
    else r :: bumpFrequency rest i

/-- The link step of `save_concepts_to_db`: insert a `document_concepts` row
unless one already exists for the pair (first-write-wins), with the context
truncated to 1000 characters. -/
def linkDocument (st : DBState) (document_id concept_id : ℕ) (relevance : ℚ)
    (context : String) : DBState :=
  if st.links.any (fun l => l.document_id == document_id && l.concept_id == concept_id) then st
  else
    { st with links := st.links ++
        [{ document_id := document_id, concept_id := concept_id,
           relevance_score := relevance, context := context.take 1000 }] }

/-- One iteration of the loop in `ConceptAnalyzer.save_concepts_to_db`: look
the concept up by name; bump the frequency of an existing row, or insert a
new row with frequency 1 (the column default) and the description seeded
from the context truncated to 500 characters; then link it to the
document. -/
def save_one_concept (st : DBState) (cd : ConceptData) (document_id : ℕ) : DBState :=
  match st.concepts.find? (fun c => decide (c.name = cd.name)) with
  | some c =>
    linkDocument { st with concepts := bumpFrequency st.concepts c.id }
      document_id c.id cd.confidence cd.context
  | none =>
    let newc : ConceptRow :=
      { id := st.next_id, name := cd.name, category := cd.category,
        description := cd.context.take 500, frequency := 1 }
    linkDocument { concepts := st.concepts ++ [newc], links := st.links,
                   next_id := st.next_id + 1 }
      document_id newc.id cd.confidence cd.context

/-- `ConceptAnalyzer.save_concepts_to_db`: the loop over all extracted
concepts for one document. -/
def save_concepts_to_db (st : DBState) (concepts : List ConceptData)
    (document_id : ℕ) : DBState :=
  concepts.foldl (fun s cd => save_one_concept s cd document_id) st

/-! ## Concept merge (`api/concepts.py`, `merge_concepts` route) -/

/-- A row of the `concepts` table as the merge endpoint uses it: id,
frequency, and the ordered list of linked document ids. -/
structure CRow where
  id : ℕ
  frequency : ℕ
  docs : List ℕ
deriving DecidableEq

/-- A row of the `concept_relations` table. -/
structure RelRow where
  concept1_id : ℕ
  concept2_id : ℕ
  relation_type : String
  strength : ℚ
deriving DecidableEq

/-- The concept-graph database: concept rows and relation rows in insertion
order. -/
structure GraphState where
  concepts : List CRow
  relations : List RelRow
deriving DecidableEq

/-- `Concept.query.get(i)`: first (unique) row with the given primary key. -/
def findConcept (st : GraphState) (i : ℕ) : Option CRow :=
  st.concepts.find? (fun c => decide (c.id = i))

/-- The relation re-pointing loop of the merge endpoint, per relation: the
loop body runs on relations matching `concept1_id = secondary or
concept2_id = secondary` and sets `concept1_id := primary` when the first
side matches, otherwise `concept2_id := primary`. -/
def repoint (secondary_id primary_id : ℕ) (r : RelRow) : RelRow :=
  if r.concept1_id = secondary_id ∨ r.concept2_id = secondary_id then
    if r.concept1_id = secondary_id then { r with concept1_id := primary_id }
    else { r with concept2_id := primary_id }
  else r

/-- Re-pointing as the specification words it: whichever side carries the
secondary id is replaced by the primary id, other relations are
untouched. -/
def repointSpec (secondary_id primary_id : ℕ) (r : RelRow) : RelRow :=
  if r.concept1_id = secondary_id then { r with concept1_id := primary_id }
  else if r.concept2_id = secondary_id then { r with concept2_id := primary_id }
  else r

/-- The `POST /concepts/merge` endpoint: `get_or_404` on both ids (a missing
id aborts with 404 before any mutation, modelled as `none`); then the
secondary's frequency is added to the primary's, the secondary's document
links are appended to the primary's skipping duplicates, every relation
referencing the secondary is re-pointed, and the secondary row is
deleted. -/
def merge_concepts (st : GraphState) (primary_id secondary_id : ℕ) : Option GraphState :=
  match findConcept st primary_id, findConcept st secondary_id with
  | some primary_concept, some secondary_concept =>
    let newDocs := primary_concept.docs
      ++ secondary_concept.docs.filter (fun d => decide (d ∉ primary_concept.docs))
    let newConcepts :=
      (st.concepts.map (fun c =>
        if c.id = primary_id then
          { c with
            frequency := primary_concept.frequency + secondary_concept.frequency,
            docs := newDocs }
        else c)).filter (fun c => decide (c.id ≠ secondary_id))
    let newRelations := st.relations.map (repoint secondary_id primary_id)
    some { concepts := newConcepts, relations := newRelations }
  | _, _ => none

/-- Two relation rows covering the same unordered pair of concepts. -/
def samePair (r r' : RelRow) : Prop :=
  (r.concept1_id = r'.concept1_id ∧ r.concept2_id = r'.concept2_id)
  ∨ (r.concept1_id = r'.concept2_id ∧ r.concept2_id = r'.concept1_id)

instance (r r' : RelRow) : Decidable (samePair r r') := by
  unfold samePair
  exact inferInstance

/-- The data-model invariant on `concept_relations`: no self-relation, and
at most one relation per unordered pair. -/
def relInvariant (st : GraphState) : Prop :=
  (∀ r ∈ st.relations, r.concept1_id ≠ r.concept2_id)
  ∧ st.relations.Pairwise (fun r r' => ¬ samePair r r')

instance (st : GraphState) : Decidable (relInvariant st) := by
  unfold relInvariant
  exact inferInstance

/-! ## Concrete instances used by the example-level theorems -/

/-- Per-document fused score as the (amended) specification words it: a
group of size one keeps its single score; a larger group gets the weighted
sum plus 0.1 per distinct contributing mode. -/
def fusedScore (g : List SR) : ℚ :=
  if g.length ≤ 1 then (g.map (fun r => r.score)).sum
  else (g.map (fun r => r.score * mode_weight r.search_type)).sum
    + (((g.map (fun r => r.search_type)).dedup.length : ℚ)) * (1/10)

/-- The specification's fusion example: one document found by the lexical
retriever with score 0.5 and by the concept retriever with score 0.3. -/
def fusionPair : List SR :=
  [{ doc_id := 1, score := 1/2, search_type := "keyword" },
   { doc_id := 1, score := 3/10, search_type := "concept" }]

/-- A single-result list for the fusion witness: document 7 found only by
the lexical retriever with score 0.5. -/
def fusionSingle : List SR :=
  [{ doc_id := 7, score := 1/2, search_type := "keyword" }]

/-- Concept A of the specification's similarity example. -/
def conceptUserInterface : CConcept :=
  { name := "user interface".toList, category := "interaction_design", docs := {1, 2, 3} }

/-- Concept B of the specification's similarity example. -/
def conceptInterfaceDesign : CConcept :=
  { name := "interface design".toList, category := "interaction_design", docs := {2, 3, 4} }

/-- Graph state for the merge demonstrations: concepts 1 and 2 with
overlapping document links, and one relation attached to concept 2. -/
def mergeDemo : GraphState :=
  { concepts := [{ id := 1, frequency := 2, docs := [10, 11] },
                 { id := 2, frequency := 3, docs := [11, 12] }],
    relations := [{ concept1_id := 2, concept2_id := 5, relation_type := "related",
                    strength := 1/2 }] }

/-- The row of concept 1 in `mergeDemo`. -/
def mergeDemoPrimary : CRow := { id := 1, frequency := 2, docs := [10, 11] }

/-- The row of concept 2 in `mergeDemo`. -/
def mergeDemoSecondary : CRow := { id := 2, frequency := 3, docs := [11, 12] }

/-- Graph state on which the merge endpoint violates the relation
invariant: concepts 1 and 2 are each related to concept 3. -/
def dupDemo : GraphState :=
  { concepts := [{ id := 1, frequency := 1, docs := [] },
                 { id := 2, frequency := 1, docs := [] },
                 { id := 3, frequency := 1, docs := [] }],
    relations := [{ concept1_id := 1, concept2_id := 3, relation_type := "related",
                    strength := 1/2 },
                  { concept1_id := 2, concept2_id := 3, relation_type := "related",
                    strength := 2/5 }] }

/-- The state the merge endpoint produces from `dupDemo` when concept 2 is
merged into concept 1: both relations now cover the pair (1, 3). -/
def dupDemoMerged : GraphState :=
  { concepts := [{ id := 1, frequency := 2, docs := [] },
                 { id := 3, frequency := 1, docs := [] }],
    relations := [{ concept1_id := 1, concept2_id := 3, relation_type := "related",
                    strength := 1/2 },
                  { concept1_id := 1, concept2_id := 3, relation_type := "related",
                    strength := 2/5 }] }

/-- Registry with a single frequency-1 concept row, for the upsert
witness. -/
def upsertDemo : DBState :=
  { concepts := [{ id := 1, name := "usability", category := "usability",
                   description := "", frequency := 1 }],
    links := [], next_id := 2 }

/-- The row stored in `upsertDemo`. -/
def upsertDemoRow : ConceptRow :=
  { id := 1, name := "usability", category := "usability", description := "",
    frequency := 1 }

/-- A sighting of the same concept name, as handed to the upsert loop. -/
def upsertDemoData : ConceptData :=
  { name := "usability", category := "usability", context := "", confidence := 9/10 }

/-- Index snapshot for the stale-document demonstration: only document 1 was
indexed, with similarity 0.5. -/
def snapDemoSims : List (ℕ × ℚ) := [(1, 1/2)]

/-- Candidate list for the stale-document demonstration: document 2 passed
the substring pre-filter but is absent from the snapshot. -/
def snapDemoDocs : List DocM := [{ id := 1 }, { id := 2 }]

/-- The one result the TF-IDF path produces on the demonstration inputs. -/
def snapDemoRes : SR := { doc_id := 1, score := 1/2, search_type := "keyword" }

/-! ## Helper lemmas -/

/-- Tokens produced by Python `split()` are never empty. -/
theorem mem_pySplit_ne_nil {s w : List Char} (h : w ∈ pySplit s) : w ≠ [] := by
  unfold pySplit at h
  rcases List.mem_filter.mp h with ⟨-, hw⟩
  simpa using hw

/-- Stripping a whitespace-only string yields the empty string. -/
theorem pyStrip_eq_nil_of_whitespace {s : List Char}
    (h : ∀ c ∈ s, c.isWhitespace = true) : pyStrip s = [] := by
  unfold pyStrip
  have h1 : s.dropWhile Char.isWhitespace = [] := by
    rw [List.dropWhile_eq_nil_iff]
    exact h
  rw [h1]
  rfl

/-- For a non-empty pattern, the occurrence count is positive exactly when
the pattern is a substring, for any sufficient fuel. -/
theorem countOccsAux_pos_iff {t : List Char} (ht : t ≠ []) :
    ∀ fuel s, s.length ≤ fuel → (0 < countOccsAux t fuel s ↔ t <:+: s) := by
  intro fuel
  induction fuel with
  | zero =>
    intro s hs
    have hnil : s = [] := List.eq_nil_of_length_eq_zero (Nat.le_zero.mp hs)
    subst hnil
    simp [countOccsAux, List.infix_nil, ht]
  | succ f ih =>
    intro s hs
    cases s with
    | nil => simp [countOccsAux, List.infix_nil, ht]
    | cons c rest =>
      by_cases hp : t.isPrefixOf (c :: rest)
      · have hpre : t <+: c :: rest := by
          rwa [List.isPrefixOf_iff_prefix] at hp
        constructor
        · intro _
          exact hpre.isInfix
        · intro _
          rw [countOccsAux, if_pos ⟨ht, hp⟩]
          omega
      · have hrest : rest.length ≤ f := by
          simp only [List.length_cons] at hs
          omega
        rw [countOccsAux, if_neg (by simp [hp])]
        rw [ih rest hrest]
        constructor
        · intro h
          exact List.infix_cons_iff.mpr (Or.inr h)
        · intro h
          rcases List.infix_cons_iff.mp h with hpre | hinf
          · exact absurd (List.isPrefixOf_iff_prefix.mpr hpre) hp
          · exact hinf

/-- For a non-empty pattern, Python `t in s` (substring membership) is
equivalent to `s.count(t) > 0`. -/
theorem countOccs_pos_iff {t s : List Char} (ht : t ≠ []) :
    0 < countOccs t s ↔ t <:+: s :=
  countOccsAux_pos_iff ht s.length s le_rfl

/-- Substring membership transfers along an occurrence-count inequality. -/
theorem infix_of_countOccs_le {t a b : List Char} (ht : t ≠ [])
    (h : countOccs t a ≤ countOccs t b) (ha : t <:+: a) : t <:+: b :=
  (countOccs_pos_iff ht).mp (lt_of_lt_of_le ((countOccs_pos_iff ht).mpr ha) h)

/-- The head of a non-empty list is a member. -/
theorem headI_mem_of_ne_nil {α : Type} [Inhabited α] {l : List α} (h : l ≠ []) :
    l.headI ∈ l := by
  cases l with
  | nil => exact absurd rfl h
  | cons a t => exact List.mem_cons_self a t

/-- `firstDedup` preserves membership. -/
theorem mem_firstDedup {x : ℕ} : ∀ {l : List ℕ}, x ∈ firstDedup l ↔ x ∈ l := by
  intro l
  induction l with
  | nil => simp [firstDedup]
  | cons a t ih =>
    simp only [firstDedup, List.mem_cons, List.mem_filter, decide_eq_true_eq]
    constructor
    · rintro (rfl | ⟨hx, -⟩)
      · exact Or.inl rfl
      · exact Or.inr (ih.mp hx)
    · rintro (rfl | hx)
      · exact Or.inl rfl
      · by_cases hxa : x = a
        · exact Or.inl hxa
        · exact Or.inr ⟨ih.mpr hx, hxa⟩

/-- Every element of a document's group carries that document's id. -/
theorem group_for_doc_id {rs : List SR} {d : ℕ} {e : SR}
    (h : e ∈ group_for rs d) : e.doc_id = d := by
  unfold group_for at h
  rcases List.mem_filter.mp h with ⟨-, h2⟩
  simpa using h2

/-- A document that occurs among the results has a non-empty group. -/
theorem group_for_ne_nil {rs : List SR} {d : ℕ}
    (h : ∃ r ∈ rs, r.doc_id = d) : group_for rs d ≠ [] := by
  rcases h with ⟨r, hr, hd⟩
  intro hnil
  have hmem : r ∈ group_for rs d :=
    List.mem_filter.mpr ⟨hr, by simpa using hd⟩
  rw [hnil] at hmem
  exact List.not_mem_nil r hmem

/-- Unfolding of the hybrid branch of `_merge_search_results`. -/
theorem merge_hybrid_eq (rs : List SR) :
    merge_search_results rs "hybrid" =
      sortByScoreDesc ((firstDedup (rs.map (fun r => r.doc_id))).map (fun d =>
        if (group_for rs d).length = 1 then (group_for rs d).headI
        else combine_group (group_for rs d))) := by
  unfold merge_search_results
  simp

/-- Merging an empty result list yields the empty list in every mode. -/
theorem merge_search_results_nil (ty : String) : merge_search_results [] ty = [] := by
  unfold merge_search_results
  split
  · rfl
  · simp [firstDedup, sortByScoreDesc]

/-- `find?` returns the head of the filtered list. -/
theorem find?_eq_filter_head {α : Type} (p : α → Bool) (l : List α) :
    l.find? p = (l.filter p).head? := by
  induction l with
  | nil => rfl
  | cons a t ih =>
    by_cases h : p a = true
    · rw [List.find?_cons_of_pos _ h, List.filter_cons_of_pos h]
      rfl
    · rw [List.find?_cons_of_neg, List.filter_cons_of_neg]
      · exact ih
      · simpa using h
      · simpa using h

/-! ## C1: hybrid fusion scores -/

/-- Claim C1, counterexample: on the specification's own example — one
document found by the lexical retriever with score 0.5 and by the concept
retriever with score 0.3 — `_merge_search_results` produces the combined
score 0.46 (the multi-mode bonus is 0.1 per distinct mode, here 0.2), not
the claimed 0.36. -/
theorem hybrid_fusion_example_counterexample :
    (merge_search_results fusionPair "hybrid").map (fun e => e.score) = [23/50] ∧
    (23 : ℚ)/50 ≠ 9/25 := by
  constructor
  · have h1 : merge_search_results fusionPair "hybrid" = [combine_group fusionPair] := rfl
    rw [h1]
    have hdedup : (fusionPair.map (fun r => r.search_type)).dedup.length = 2 := by decide
    simp only [List.map_cons, List.map_nil, combine_group, hdedup]
    norm_num [fusionPair, mode_weight]
    rw [if_neg (by decide : ¬ ("concept" : String) = "keyword"),
      if_neg (by decide : ¬ ("concept" : String) = "semantic")]
    norm_num
  · norm_num

/-- Claim C1 (amended): in hybrid mode, a document found by exactly one
result keeps its single score unchanged, and a document found by several
results gets Σ(score × mode weight) + 0.1 × (number of distinct mode tags),
with weights 0.4 / 0.4 / 0.2 for keyword / semantic / concept and 0.3
otherwise — so the example document found by lexical (0.5) and concept
(0.3) scores 0.46.  `fusedScore` states exactly this formula over the
document's result group. -/
theorem hybrid_fusion_score (rs : List SR) (d : ℕ) (hd : ∃ r ∈ rs, r.doc_id = d) :
    (∃ e ∈ merge_search_results rs "hybrid", e.doc_id = d) ∧
    ∀ e ∈ merge_search_results rs "hybrid", e.doc_id = d →
      e.score = fusedScore (group_for rs d) := by
  have hmem : ∀ e : SR, e ∈ merge_search_results rs "hybrid" ↔
      e ∈ (firstDedup (rs.map (fun r => r.doc_id))).map (fun k =>
        if (group_for rs k).length = 1 then (group_for rs k).headI
        else combine_group (group_for rs k)) := by
    intro e
    rw [merge_hybrid_eq]
    exact (List.perm_insertionSort _ _).mem_iff
  have key : ∀ k : ℕ, (∃ r ∈ rs, r.doc_id = k) →
      ((if (group_for rs k).length = 1 then (group_for rs k).headI
        else combine_group (group_for rs k)).doc_id = k
       ∧ (if (group_for rs k).length = 1 then (group_for rs k).headI
          else combine_group (group_for rs k)).score = fusedScore (group_for rs k)) := by
    intro k hk
    have hne : group_for rs k ≠ [] := group_for_ne_nil hk
    by_cases h1 : (group_for rs k).length = 1
    · rcases List.length_eq_one.mp h1 with ⟨x, hx⟩
      constructor
      · rw [if_pos h1]
        exact group_for_doc_id (headI_mem_of_ne_nil hne)
      · rw [if_pos h1]
        rw [hx]
        simp [fusedScore]
    · have hlen : ¬ (group_for rs k).length ≤ 1 := by
        have h0 : (group_for rs k).length ≠ 0 := by
          simpa [List.length_eq_zero] using hne
        omega
      constructor
      · rw [if_neg h1]
        show (group_for rs k).headI.doc_id = k
        exact group_for_doc_id (headI_mem_of_ne_nil hne)
      · rw [if_neg h1, fusedScore, if_neg hlen]
        rfl
  have hdd : d ∈ firstDedup (rs.map (fun r => r.doc_id)) := by
    rcases hd with ⟨r, hr, hrd⟩
    exact mem_firstDedup.mpr (List.mem_map.mpr ⟨r, hr, hrd⟩)
  obtain ⟨hdoc, hscore⟩ := key d hd
  constructor
  · exact ⟨_, (hmem _).mpr (List.mem_map.mpr ⟨d, hdd, rfl⟩), hdoc⟩
  · intro e he hed
    rcases List.mem_map.mp ((hmem e).mp he) with ⟨k, hkmem, hke⟩
    have hk' : ∃ r ∈ rs, r.doc_id = k := by
      rcases List.mem_map.mp (mem_firstDedup.mp hkmem) with ⟨r, hr, hrk⟩
      exact ⟨r, hr, hrk⟩
    obtain ⟨hdoc_k, hscore_k⟩ := key k hk'
    have hkd : k = d := by
      rw [← hed, ← hke]
      exact hdoc_k.symm
    subst hkd
    rw [← hke]
    exact hscore_k

/-- Claim C1, witness: the single-result document 7 is present in the merged
output with its score preserved by `fusedScore`. -/
theorem hybrid_fusion_score_witness :
    (∃ r ∈ fusionSingle, r.doc_id = 7) ∧
    ((∃ e ∈ merge_search_results fusionSingle "hybrid", e.doc_id = 7) ∧
     ∀ e ∈ merge_search_results fusionSingle "hybrid", e.doc_id = 7 →
       e.score = fusedScore (group_for fusionSingle 7)) :=
  ⟨⟨{ doc_id := 7, score := 1/2, search_type := "keyword" }, List.mem_singleton_self _, rfl⟩,
    hybrid_fusion_score fusionSingle 7
      ⟨{ doc_id := 7, score := 1/2, search_type := "keyword" }, List.mem_singleton_self _, rfl⟩⟩

/-! ## C4: concept similarity -/

/-- Value of the similarity on the specification's example pair:
1/3 × 0.4 + 0.3 + 2/3 × 0.3 = 19/30. -/
theorem similarity_example_value :
    calculate_concept_similarity conceptUserInterface conceptInterfaceDesign = 19/30 := by
  have h_inter : ((pySplit (toLowerL conceptUserInterface.name)).toFinset
      ∩ (pySplit (toLowerL conceptInterfaceDesign.name)).toFinset).card = 1 := by decide
  have h_union : ((pySplit (toLowerL conceptUserInterface.name)).toFinset
      ∪ (pySplit (toLowerL conceptInterfaceDesign.name)).toFinset).card = 3 := by decide
  have h_w1 : (pySplit (toLowerL conceptUserInterface.name)).toFinset ≠ ∅ := by decide
  have h_w2 : (pySplit (toLowerL conceptInterfaceDesign.name)).toFinset ≠ ∅ := by decide
  have h_cat : conceptUserInterface.category = conceptInterfaceDesign.category := by decide
  have h_common : conceptUserInterface.docs ∩ conceptInterfaceDesign.docs ≠ ∅ := by decide
  have h_ccard : (conceptUserInterface.docs ∩ conceptInterfaceDesign.docs).card = 2 := by decide
  have h_max : max conceptUserInterface.docs.card conceptInterfaceDesign.docs.card = 3 := by
    decide
  simp only [calculate_concept_similarity]
  rw [if_pos ⟨h_w1, h_w2⟩, if_pos h_cat, if_pos h_common, h_inter, h_union, h_ccard, h_max]
  norm_num [min_def]

/-- Claim C4, counterexample: on the specification's example pair the
similarity is 19/30 ≈ 0.6333, which is not approximately 0.6467 (the gap
exceeds 0.01). -/
theorem concept_similarity_example_counterexample :
    calculate_concept_similarity conceptUserInterface conceptInterfaceDesign = 19/30 ∧
    |(19 : ℚ)/30 - 6467/10000| > 1/100 := by
  constructor
  · exact similarity_example_value
  · rw [abs_of_neg (by norm_num)]
    norm_num

/-- Claim C4 (amended): the similarity is the Jaccard term × 0.4 plus the
category term (0.3 when equal) plus the co-occurrence term × 0.3 (zero when
no document is shared), capped at 1 — and on the specification's example
pair its value is 19/30 ≈ 0.6333 (not 0.6467). -/
theorem concept_similarity_spec :
    (∀ c1 c2 : CConcept, calculate_concept_similarity c1 c2 = similaritySpec c1 c2) ∧
    calculate_concept_similarity conceptUserInterface conceptInterfaceDesign = 19/30 := by
  constructor
  · intro c1 c2
    simp only [calculate_concept_similarity, similaritySpec]
    congr 1
    by_cases h1 : (pySplit (toLowerL c1.name)).toFinset = ∅
    · by_cases h3 : c1.docs ∩ c2.docs = ∅ <;> simp [h1, h3]
    · by_cases h2 : (pySplit (toLowerL c2.name)).toFinset = ∅
      · by_cases h3 : c1.docs ∩ c2.docs = ∅ <;> simp [h1, h2, h3]
      · by_cases h3 : c1.docs ∩ c2.docs = ∅ <;> simp [h1, h2, h3]
  · exact similarity_example_value

/-! ## C5: relation type rules -/

/-- Claim C5: `_determine_relation_type` follows the ordered rules with the
first match winning — similarity above 0.8 gives synonym; otherwise an
equal category gives related; otherwise "design" in both names gives
related; otherwise similarity above 0.6 gives related; otherwise
weak_relation. -/
theorem relation_type_rules (c1 c2 : CConcept) (s : ℚ) :
    (s > 4/5 → determine_relation_type c1 c2 s = "synonym") ∧
    (¬ s > 4/5 → c1.category = c2.category →
      determine_relation_type c1 c2 s = "related") ∧
    (¬ s > 4/5 → c1.category ≠ c2.category →
      ("design".toList <:+: c1.name ∧ "design".toList <:+: c2.name) →
      determine_relation_type c1 c2 s = "related") ∧
    (¬ s > 4/5 → c1.category ≠ c2.category →
      ¬ ("design".toList <:+: c1.name ∧ "design".toList <:+: c2.name) →
      s > 3/5 → determine_relation_type c1 c2 s = "related") ∧
    (¬ s > 4/5 → c1.category ≠ c2.category →
      ¬ ("design".toList <:+: c1.name ∧ "design".toList <:+: c2.name) →
      ¬ s > 3/5 → determine_relation_type c1 c2 s = "weak_relation") := by
  unfold determine_relation_type
  refine ⟨?_, ?_, ?_, ?_, ?_⟩
  · intro h1
    rw [if_pos h1]
  · intro h1 h2
    rw [if_neg h1, if_pos h2]
  · intro h1 h2 h3
    rw [if_neg h1, if_neg h2, if_pos h3]
  · intro h1 h2 h3 h4
    rw [if_neg h1, if_neg h2, if_neg h3, if_pos h4]
  · intro h1 h2 h3 h4
    rw [if_neg h1, if_neg h2, if_neg h3, if_neg h4]

/-- Claim C5, witness: at similarity 0.9 the first rule fires on the example
concepts and yields synonym. -/
theorem relation_type_rules_witness :
    (9 : ℚ)/10 > 4/5 ∧
    determine_relation_type conceptUserInterface conceptInterfaceDesign (9/10) = "synonym" :=
  ⟨by norm_num,
    (relation_type_rules conceptUserInterface conceptInterfaceDesign (9/10)).1 (by norm_num)⟩

/-! ## C6: fallback lexical score -/

/-- Claim C6: the fallback relevance score is monotone non-decreasing in the
per-term occurrence counts over title, summary and content, and the content
contribution of a single query term never exceeds 1. -/
theorem simple_relevance_monotone_and_capped
    (query title1 summary1 content1 title2 summary2 content2 : List Char)
    (h : ∀ t ∈ pySplit (toLowerL query),
      countOccs t (toLowerL title1) ≤ countOccs t (toLowerL title2) ∧
      countOccs t (toLowerL summary1) ≤ countOccs t (toLowerL summary2) ∧
      countOccs t (toLowerL content1) ≤ countOccs t (toLowerL content2)) :
    calculate_simple_relevance title1 summary1 content1 query
      ≤ calculate_simple_relevance title2 summary2 content2 query ∧
    ∀ t c : List Char, contentTermScore t c ≤ 1 := by
  constructor
  · unfold calculate_simple_relevance
    refine add_le_add (add_le_add ?_ ?_) ?_
    · apply List.sum_le_sum
      intro t htm
      have ht : t ≠ [] := mem_pySplit_ne_nil htm
      have hc := (h t htm).1
      by_cases hin : t <:+: toLowerL title1
      · rw [if_pos hin, if_pos (infix_of_countOccs_le ht hc hin)]
      · rw [if_neg hin]
        by_cases hin2 : t <:+: toLowerL title2
        · rw [if_pos hin2]
          norm_num
        · rw [if_neg hin2]
    · apply List.sum_le_sum
      intro t htm
      have hc := (h t htm).2.1
      simp only [mul_one]
      exact_mod_cast hc
    · apply List.sum_le_sum
      intro t htm
      have hc := (h t htm).2.2
      unfold contentTermScore
      have hq : (countOccs t (toLowerL content1) : ℚ) ≤ countOccs t (toLowerL content2) := by
        exact_mod_cast hc
      exact min_le_min (by nlinarith) le_rfl
  · intro t c
    exact min_le_right _ _

/-- Claim C6, witness: the empty document scores at most the document
containing the query term everywhere, and the cap holds. -/
theorem simple_relevance_witness :
    (∀ t ∈ pySplit (toLowerL "ab".toList),
      countOccs t (toLowerL "".toList) ≤ countOccs t (toLowerL "ab".toList) ∧
      countOccs t (toLowerL "".toList) ≤ countOccs t (toLowerL "ab ab".toList) ∧
      countOccs t (toLowerL "".toList) ≤ countOccs t (toLowerL "ab".toList)) ∧
    (calculate_simple_relevance "".toList "".toList "".toList "ab".toList
      ≤ calculate_simple_relevance "ab".toList "ab ab".toList "ab".toList "ab".toList ∧
     ∀ t c : List Char, contentTermScore t c ≤ 1) :=
  ⟨by decide,
    simple_relevance_monotone_and_capped "ab".toList "".toList "".toList "".toList
      "ab".toList "ab ab".toList "ab".toList (by decide)⟩

/-! ## C7: empty-query validation -/

/-- Claim C7: a whitespace-only (or empty) `q` makes the search route return
the validation error, and the outcome does not depend on the retrieval
function — no retrieval is performed. -/
theorem empty_query_rejected (retrieve retrieve2 : List Char → List SR)
    (q : List Char) (h : ∀ c ∈ q, c.isWhitespace = true) :
    search_documents_route retrieve q = ApiOutcome.validationError ∧
    search_documents_route retrieve q = search_documents_route retrieve2 q := by
  have hq : pyStrip q = [] := pyStrip_eq_nil_of_whitespace h
  constructor <;> simp [search_documents_route, hq]

/-- Claim C7, witness: the two-space query is rejected regardless of the
retrieval function. -/
theorem empty_query_rejected_witness :
    (∀ c ∈ "  ".toList, c.isWhitespace = true) ∧
    (search_documents_route (fun _ => []) "  ".toList = ApiOutcome.validationError ∧
     search_documents_route (fun _ => []) "  ".toList
       = search_documents_route (fun _ => [fusionSingle.headI]) "  ".toList) :=
  ⟨by decide,
    empty_query_rejected (fun _ => []) (fun _ => [fusionSingle.headI])
      "  ".toList (by decide)⟩

/-! ## C9: degraded semantic retrieval -/

/-- Claim C9: when the embedding model is absent or no document embeddings
exist, semantic retrieval returns no results, the search outcome does not
depend on the semantic similarity computation at all, and if the remaining
modes contribute nothing the search returns the empty list rather than a
failure. -/
theorem degraded_semantic_search (embedding_model : Option (List Char → List ℚ))
    (document_embeddings : List (ℕ × List ℚ)) (keyword_results concept_results : List SR)
    (body body2 : (List Char → List ℚ) → List (ℕ × List ℚ) → List SR)
    (query : List Char) (search_type : String) (limit : ℕ)
    (h : embedding_model = none ∨ document_embeddings = []) :
    semantic_search embedding_model document_embeddings body = [] ∧
    search_documents_impl embedding_model document_embeddings keyword_results
        concept_results body query search_type limit
      = search_documents_impl embedding_model document_embeddings keyword_results
        concept_results body2 query search_type limit ∧
    (keyword_results = [] → concept_results = [] →
      search_documents_impl embedding_model document_embeddings keyword_results
        concept_results body query search_type limit = []) := by
  have hsem : ∀ b, semantic_search embedding_model document_embeddings b = [] := by
    intro b
    rcases h with h | h
    · rw [h]
      rfl
    · cases embedding_model with
      | none => rfl
      | some m => simp [semantic_search, h]
  refine ⟨hsem body, ?_, ?_⟩
  · unfold search_documents_impl
    rw [hsem body, hsem body2]
  · intro hkw hcc
    subst hkw
    subst hcc
    unfold search_documents_impl
    rw [hsem body]
    simp [merge_search_results_nil]

/-- Claim C9, witness: with no embedding model and no contributing modes, a
hybrid search returns the empty list and ignores the semantic body. -/
theorem degraded_semantic_search_witness :
    ((none : Option (List Char → List ℚ)) = none ∨ ([] : List (ℕ × List ℚ)) = []) ∧
    (semantic_search none [] (fun _ _ => []) = [] ∧
     search_documents_impl none [] [] [] (fun _ _ => []) "design".toList "hybrid" 20
       = search_documents_impl none [] [] [] (fun _ _ => [fusionSingle.headI])
           "design".toList "hybrid" 20 ∧
     (([] : List SR) = [] → ([] : List SR) = [] →
       search_documents_impl none [] [] [] (fun _ _ => []) "design".toList "hybrid" 20 = [])) :=
  ⟨Or.inl rfl,
    degraded_semantic_search none [] [] [] (fun _ _ => []) (fun _ _ => [fusionSingle.headI])
      "design".toList "hybrid" 20 (Or.inl rfl)⟩

/-! ## C10: TF-IDF ranking returns only snapshot documents -/

/-- Claim C10: every result of the TF-IDF ranking path refers to a document
present in the index snapshot, and a candidate document absent from the
snapshot (similarity defaulting to 0, below the 0.01 threshold) never
appears among the results, even though it passed the substring
pre-filter. -/
theorem keyword_snapshot_only (sims : List (ℕ × ℚ)) (docs : List DocM) (query : String)
    (hl : DocM → String → List String) (d : DocM)
    (hd : d ∈ docs) (hnone : List.lookup d.id sims = none) :
    (∀ e ∈ tfidf_rank sims docs query hl, (List.lookup e.doc_id sims).isSome = true) ∧
    (∀ e ∈ tfidf_rank sims docs query hl, e.doc_id ≠ d.id) := by
  have key : ∀ e ∈ tfidf_rank sims docs query hl, (List.lookup e.doc_id sims).isSome = true := by
    intro e he
    have he' : e ∈ docs.filterMap (fun doc =>
        if ((List.lookup doc.id sims).getD 0) > 1/100 then
          some { doc_id := doc.id, score := (List.lookup doc.id sims).getD 0,
                 search_type := "keyword", highlights := hl doc query }
        else none) := by
      unfold tfidf_rank sortByScoreDesc at he
      exact (List.perm_insertionSort _ _).mem_iff.mp he
    rcases List.mem_filterMap.mp he' with ⟨doc, hdoc, hsome⟩
    by_cases hgt : ((List.lookup doc.id sims).getD 0) > 1/100
    · rw [if_pos hgt] at hsome
      injection hsome with hsome
      subst hsome
      cases hcase : List.lookup doc.id sims with
      | none =>
        rw [hcase] at hgt
        norm_num at hgt
      | some v => simp
    · rw [if_neg hgt] at hsome
      exact absurd hsome (by simp)
  refine ⟨key, ?_⟩
  intro e he heq
  have hsome := key e he
  rw [heq, hnone] at hsome
  simp at hsome

/-- Claim C10, witness: with snapshot `[(1, 0.5)]` and candidates 1 and 2,
document 2 (not in the snapshot) never appears; the sole result is
document 1. -/
theorem keyword_snapshot_only_witness :
    ({ id := 2 } : DocM) ∈ snapDemoDocs ∧
    List.lookup ({ id := 2 } : DocM).id snapDemoSims = none ∧
    snapDemoRes ∈ tfidf_rank snapDemoSims snapDemoDocs "x" (fun _ _ => []) ∧
    snapDemoRes.doc_id ≠ ({ id := 2 } : DocM).id := by
  have hres : tfidf_rank snapDemoSims snapDemoDocs "x" (fun _ _ => []) = [snapDemoRes] := by
    unfold tfidf_rank snapDemoSims snapDemoDocs snapDemoRes sortByScoreDesc
    norm_num [List.filterMap, List.lookup]
    simp only [show ((2 : ℕ) == 1) = false from rfl, Option.getD_none]
    rw [if_neg (by norm_num)]
    rfl
  have hmem : snapDemoRes ∈ tfidf_rank snapDemoSims snapDemoDocs "x" (fun _ _ => []) := by
    rw [hres]
    exact List.mem_singleton_self _
  exact ⟨by decide, by decide, hmem,
    (keyword_snapshot_only snapDemoSims snapDemoDocs "x" (fun _ _ => []) { id := 2 }
      (by decide) (by decide)).2 snapDemoRes hmem⟩

/-! ## C2: concept merge -/

/-- Finding a row by primary key commutes with an id-preserving row map
followed by dropping the rows of another key. -/
theorem find_map_filter {f : CRow → CRow} (hf : ∀ c, (f c).id = c.id)
    {l : List CRow} {p s : ℕ} {cp : CRow} (hps : p ≠ s)
    (h : l.find? (fun c => decide (c.id = p)) = some cp) :
    ((l.map f).filter (fun c => decide (c.id ≠ s))).find? (fun c => decide (c.id = p))
      = some (f cp) := by
  induction l with
  | nil => simp at h
  | cons a t ih =>
    by_cases ha : a.id = p
    · rw [List.find?_cons_of_pos _ (by simpa using ha)] at h
      injection h with h
      subst h
      have hfa : (f a).id = p := by rw [hf]; exact ha
      have hfs : (f a).id ≠ s := by rw [hfa]; exact hps
      simp only [List.map_cons]
      rw [List.filter_cons_of_pos (by simpa using hfs)]
      rw [List.find?_cons_of_pos _ (by simpa using hfa)]
    · rw [List.find?_cons_of_neg _ (by simpa using ha)] at h
      specialize ih h
      simp only [List.map_cons]
      by_cases has : (f a).id = s
      · rw [List.filter_cons_of_neg (by simpa using has)]
        exact ih
      · rw [List.filter_cons_of_pos (by simpa using has)]
        rw [List.find?_cons_of_neg _ (by simp [hf, ha])]
        exact ih

/-- After dropping the rows with key `s`, no row with key `s` can be
found. -/
theorem find_filtered_none (f : CRow → CRow) (l : List CRow) (s : ℕ) :
    ((l.map f).filter (fun c => decide (c.id ≠ s))).find? (fun c => decide (c.id = s))
      = none := by
  rw [List.find?_eq_none]
  intro x hx
  rcases List.mem_filter.mp hx with ⟨-, hxs⟩
  simp only [decide_eq_true_eq] at hxs ⊢
  exact hxs

/-- Appending the not-yet-present elements of `b` to `a` produces, as a set,
the union of the two. -/
theorem toFinset_dedup_append (a b : List ℕ) :
    (a ++ b.filter (fun d => decide (d ∉ a))).toFinset = a.toFinset ∪ b.toFinset := by
  ext x
  simp only [List.toFinset_append, Finset.mem_union, List.mem_toFinset, List.mem_filter,
    decide_eq_true_eq]
  tauto

/-- The loop body of the merge endpoint re-points exactly as the
specification describes. -/
theorem repoint_eq_repointSpec (s p : ℕ) (r : RelRow) :
    repoint s p r = repointSpec s p r := by
  unfold repoint repointSpec
  by_cases h1 : r.concept1_id = s <;> by_cases h2 : r.concept2_id = s <;> simp [h1, h2]

/-- Claim C2: when both ids exist and differ, the merge endpoint succeeds
and produces a state where the primary row's frequency is the sum of both
frequencies, its document set is the union of both document sets, the
secondary row is gone, and every relation has been re-pointed from the
secondary to the primary; a repeated merge of the absorbed id fails with
404, and a merge with either id missing fails with 404 (no mutation, the
state is not touched). -/
theorem merge_concepts_spec (st : GraphState) (p s : ℕ) (cp cs : CRow)
    (hp : findConcept st p = some cp) (hs : findConcept st s = some cs) (hps : p ≠ s) :
    ∃ st', merge_concepts st p s = some st' ∧
      (∃ cp', findConcept st' p = some cp' ∧
        cp'.frequency = cp.frequency + cs.frequency ∧
        cp'.docs.toFinset = cp.docs.toFinset ∪ cs.docs.toFinset) ∧
      findConcept st' s = none ∧
      st'.relations = st.relations.map (repointSpec s p) ∧
      merge_concepts st' p s = none ∧
      (∀ st2 : GraphState, (findConcept st2 p = none ∨ findConcept st2 s = none) →
        merge_concepts st2 p s = none) := by
  have hnone : ∀ st2 : GraphState, (findConcept st2 p = none ∨ findConcept st2 s = none) →
      merge_concepts st2 p s = none := by
    intro st2 h2
    unfold merge_concepts
    rcases h2 with h2 | h2
    · rw [h2]
    · rw [h2]
      cases findConcept st2 p <;> rfl
  have hcp_id : cp.id = p := by
    have := List.find?_some hp
    simpa using this
  refine ⟨⟨(st.concepts.map (fun c => if c.id = p then { c with frequency := cp.frequency + cs.frequency, docs := cp.docs ++ cs.docs.filter (fun d => decide (d ∉ cp.docs)) } else c)).filter (fun c => decide (c.id ≠ s)), st.relations.map (repoint s p)⟩, ?_, ?_, ?_, ?_, ?_, hnone⟩
  · unfold merge_concepts
    rw [hp, hs]
  · have hf_id : ∀ c : CRow, ((fun c : CRow => if c.id = p then { c with frequency := cp.frequency + cs.frequency, docs := cp.docs ++ cs.docs.filter (fun d => decide (d ∉ cp.docs)) } else c) c).id = c.id := by
      intro c
      by_cases h : c.id = p <;> simp [h]
    refine ⟨_, find_map_filter hf_id hps hp, ?_, ?_⟩
    · simp [hcp_id]
    · simp only [hcp_id, if_pos rfl]
      exact toFinset_dedup_append _ _
  · exact find_filtered_none _ _ _
  · exact List.map_congr_left (fun r _ => repoint_eq_repointSpec s p r)
  · apply hnone
    right
    exact find_filtered_none _ _ _

/-- Claim C2, witness: merging concept 2 into concept 1 on `mergeDemo` sums
the frequencies (2 + 3), unions the document links ({10, 11} ∪ {11, 12}),
removes concept 2, re-points its relation, and a repeat fails with 404. -/
theorem merge_concepts_spec_witness :
    findConcept mergeDemo 1 = some mergeDemoPrimary ∧
    findConcept mergeDemo 2 = some mergeDemoSecondary ∧
    (1 : ℕ) ≠ 2 ∧
    (∃ st', merge_concepts mergeDemo 1 2 = some st' ∧
      (∃ cp', findConcept st' 1 = some cp' ∧
        cp'.frequency = mergeDemoPrimary.frequency + mergeDemoSecondary.frequency ∧
        cp'.docs.toFinset = mergeDemoPrimary.docs.toFinset ∪ mergeDemoSecondary.docs.toFinset) ∧
      findConcept st' 2 = none ∧
      st'.relations = mergeDemo.relations.map (repointSpec 2 1) ∧
      merge_concepts st' 1 2 = none ∧
      (∀ st2 : GraphState, (findConcept st2 1 = none ∨ findConcept st2 2 = none) →
        merge_concepts st2 1 2 = none)) :=
  ⟨rfl, rfl, by decide,
    merge_concepts_spec mergeDemo 1 2 mergeDemoPrimary mergeDemoSecondary rfl rfl (by decide)⟩

/-! ## C3: relation invariant across merge -/

/-- Claim C3 fails on the code: starting from a state satisfying the
relation invariant (concepts 1 and 2 each related to 3), merging concept 2
into concept 1 produces two relations covering the unordered pair (1, 3) —
the merge endpoint performs no post-merge dedup pass, so the invariant is
violated. -/
theorem merge_breaks_relation_invariant :
    relInvariant dupDemo ∧
    merge_concepts dupDemo 1 2 = some dupDemoMerged ∧
    ¬ relInvariant dupDemoMerged := by
  refine ⟨by decide, rfl, by decide⟩

/-! ## C8: concept upsert -/

/-- Bumping a row's frequency preserves the table length. -/
theorem bumpFrequency_length (l : List ConceptRow) (i : ℕ) :
    (bumpFrequency l i).length = l.length := by
  induction l with
  | nil => rfl
  | cons a t ih =>
    unfold bumpFrequency
    by_cases h : a.id = i <;> simp [h, ih]

/-- Rows with a different id survive a frequency bump untouched. -/
theorem mem_bumpFrequency_of_ne {l : List ConceptRow} {i : ℕ} {r : ConceptRow}
    (hr : r ∈ l) (hne : r.id ≠ i) : r ∈ bumpFrequency l i := by
  induction l with
  | nil => simp at hr
  | cons a t ih =>
    unfold bumpFrequency
    by_cases h : a.id = i
    · rw [if_pos h]
      rcases List.mem_cons.mp hr with rfl | hrt
      · exact absurd h hne
      · exact List.mem_cons_of_mem _ hrt
    · rw [if_neg h]
      rcases List.mem_cons.mp hr with rfl | hrt
      · exact List.mem_cons_self _ _
      · exact List.mem_cons_of_mem _ (ih hrt)

/-- A frequency bump does not change the stored ids. -/
theorem map_id_bumpFrequency (l : List ConceptRow) (i : ℕ) :
    (bumpFrequency l i).map (fun r => r.id) = l.map (fun r => r.id) := by
  induction l with
  | nil => rfl
  | cons a t ih =>
    unfold bumpFrequency
    by_cases h : a.id = i <;> simp [h, ih]

/-- With unique ids, bumping the id of a stored row makes that row findable
with its frequency incremented by exactly one. -/
theorem find?_bumpFrequency {l : List ConceptRow} {c : ConceptRow}
    (hN : (l.map (fun r => r.id)).Nodup) (hc : c ∈ l) :
    (bumpFrequency l c.id).find? (fun r => decide (r.id = c.id))
      = some { c with frequency := c.frequency + 1 } := by
  induction l with
  | nil => simp at hc
  | cons a t ih =>
    rw [List.map_cons, List.nodup_cons] at hN
    obtain ⟨ha_nin, hN_t⟩ := hN
    by_cases h : a.id = c.id
    · have hac : a = c := by
        rcases List.mem_cons.mp hc with rfl | hct
        · rfl
        · exfalso
          apply ha_nin
          rw [h]
          exact List.mem_map_of_mem (fun r => r.id) hct
      subst hac
      unfold bumpFrequency
      rw [if_pos rfl]
      rw [List.find?_cons_of_pos _ (by simp)]
    · have hct : c ∈ t := by
        rcases List.mem_cons.mp hc with rfl | hct
        · exact absurd rfl h
        · exact hct
      unfold bumpFrequency
      rw [if_neg h]
      rw [List.find?_cons_of_neg _ (by simpa using h)]
      exact ih hN_t hct

/-- With unique ids, if exactly one row carries a name, then after bumping
that row's id the name still selects exactly that row, frequency
incremented. -/
theorem filter_bumpFrequency {l : List ConceptRow} {c0 : ConceptRow} {nm : String}
    (hN : (l.map (fun r => r.id)).Nodup)
    (hf : l.filter (fun r => decide (r.name = nm)) = [c0]) :
    (bumpFrequency l c0.id).filter (fun r => decide (r.name = nm))
      = [{ c0 with frequency := c0.frequency + 1 }] := by
  induction l with
  | nil => simp at hf
  | cons a t ih =>
    rw [List.map_cons, List.nodup_cons] at hN
    obtain ⟨ha_nin, hN_t⟩ := hN
    by_cases hname : a.name = nm
    · rw [List.filter_cons_of_pos (by simpa using hname)] at hf
      injection hf with h1 h2
      subst h1
      unfold bumpFrequency
      rw [if_pos rfl]
      rw [List.filter_cons_of_pos (by simpa using hname)]
      rw [h2]
    · rw [List.filter_cons_of_neg (by simpa using hname)] at hf
      have hc0f : c0 ∈ t.filter (fun r => decide (r.name = nm)) := by
        rw [hf]
        exact List.mem_singleton_self _
      have hc0t : c0 ∈ t := List.mem_of_mem_filter hc0f
      have haid : a.id ≠ c0.id := by
        intro he
        apply ha_nin
        rw [he]
        exact List.mem_map_of_mem (fun r => r.id) hc0t
      unfold bumpFrequency
      rw [if_neg haid]
      rw [List.filter_cons_of_neg (by simpa using hname)]
      exact ih hN_t hf

/-- The link step never touches the concept rows. -/
theorem linkDocument_concepts (st : DBState) (d c : ℕ) (rel : ℚ) (ctx : String) :
    (linkDocument st d c rel ctx).concepts = st.concepts := by
  unfold linkDocument
  split <;> rfl

/-- Unfolding of one upsert iteration when the name already exists: the
concept table is the old table with that row's frequency bumped. -/
theorem save_one_concept_concepts_of_find {st : DBState} {cd : ConceptData} {c : ConceptRow}
    (document_id : ℕ)
    (hfind : st.concepts.find? (fun r => decide (r.name = cd.name)) = some c) :
    (save_one_concept st cd document_id).concepts = bumpFrequency st.concepts c.id := by
  unfold save_one_concept
  rw [hfind]
  exact linkDocument_concepts _ _ _ _ _

/-- Claim C8: the upsert loop deduplicates by stored (normalized) name — an
existing row has its frequency incremented by exactly 1, is findable
unchanged otherwise, and no row is added; a missing name appends a fresh
row with frequency 1; and two further upserts of the name of an existing
frequency-1 concept leave exactly one row with that name, at frequency 3. -/
theorem save_concepts_upsert (st : DBState) (cd : ConceptData) (document_id : ℕ)
    (hN : (st.concepts.map (fun r => r.id)).Nodup) :
    (∀ c, st.concepts.find? (fun r => decide (r.name = cd.name)) = some c →
      (save_one_concept st cd document_id).concepts.length = st.concepts.length ∧
      (save_one_concept st cd document_id).concepts.find? (fun r => decide (r.id = c.id))
        = some { c with frequency := c.frequency + 1 } ∧
      ∀ r ∈ st.concepts, r.id ≠ c.id → r ∈ (save_one_concept st cd document_id).concepts) ∧
    (st.concepts.find? (fun r => decide (r.name = cd.name)) = none →
      (save_one_concept st cd document_id).concepts
        = st.concepts ++ [{ id := st.next_id, name := cd.name, category := cd.category, description := cd.context.take 500, frequency := 1 }]) ∧
    (∀ c0, st.concepts.filter (fun r => decide (r.name = cd.name)) = [c0] →
      c0.frequency = 1 →
      (save_concepts_to_db st [cd, cd] document_id).concepts.filter
          (fun r => decide (r.name = cd.name)) = [{ c0 with frequency := 3 }]) := by
  refine ⟨?_, ?_, ?_⟩
  · intro c hfind
    have hconc := save_one_concept_concepts_of_find document_id hfind
    have hcmem : c ∈ st.concepts := List.mem_of_find?_eq_some hfind
    refine ⟨?_, ?_, ?_⟩
    · rw [hconc]
      exact bumpFrequency_length _ _
    · rw [hconc]
      exact find?_bumpFrequency hN hcmem
    · intro r hr hne
      rw [hconc]
      exact mem_bumpFrequency_of_ne hr hne
  · intro hfind
    simp only [save_one_concept, hfind, linkDocument_concepts]
  · intro c0 hfilter hfreq
    have hfind : st.concepts.find? (fun r => decide (r.name = cd.name)) = some c0 := by
      rw [find?_eq_filter_head, hfilter]
      rfl
    have h1conc := save_one_concept_concepts_of_find document_id hfind
    have hN1 : ((save_one_concept st cd document_id).concepts.map (fun r => r.id)).Nodup := by
      rw [h1conc, map_id_bumpFrequency]
      exact hN
    have hfilter1 : (save_one_concept st cd document_id).concepts.filter
        (fun r => decide (r.name = cd.name)) = [{ c0 with frequency := c0.frequency + 1 }] := by
      rw [h1conc]
      exact filter_bumpFrequency hN hfilter
    have hfind1 : (save_one_concept st cd document_id).concepts.find?
        (fun r => decide (r.name = cd.name)) = some { c0 with frequency := c0.frequency + 1 } := by
      rw [find?_eq_filter_head, hfilter1]
      rfl
    have h2conc := save_one_concept_concepts_of_find document_id hfind1
    show (save_one_concept (save_one_concept st cd document_id) cd document_id).concepts.filter
        (fun r => decide (r.name = cd.name)) = [{ c0 with frequency := 3 }]
    rw [h2conc]
    have hstep := filter_bumpFrequency hN1 hfilter1
    exact hstep.trans (by simp [hfreq])

/-- Claim C8, witness: two further upserts of the name of the stored
frequency-1 concept leave exactly one row with that name, at frequency 3. -/
theorem save_concepts_upsert_witness :
    upsertDemo.concepts.filter (fun r => decide (r.name = upsertDemoData.name))
      = [upsertDemoRow] ∧
    upsertDemoRow.frequency = 1 ∧
    (save_concepts_to_db upsertDemo [upsertDemoData, upsertDemoData] 42).concepts.filter
        (fun r => decide (r.name = upsertDemoData.name))
      = [{ upsertDemoRow with frequency := 3 }] :=
  ⟨by decide, by decide,
    (save_concepts_upsert upsertDemo upsertDemoData 42 (by decide)).2.2 upsertDemoRow
      (by decide) (by decide)⟩
